import Mathlib

/-!
Verification development for `nft_helper.py`: a shallow embedding of the
intent-to-command synthesizer (`generate_nft_command`,
`validate_protocol_port`), the rule-expression interpreter
(`format_rule_expression`), the query layer (`search_rules_by_port`,
`get_rule_summary`) and the apply-with-remediation orchestrator
(`execute_command`), together with theorems settling the specification
claims about them.

Modelling conventions:
* Python strings are `String`, Python ints are `Int`.
* A Python value that may be a string, an int, or one of the dict shapes
  the code probes (`{val: ...}`, `{prefix: {addr, len}}`) is the
  inductive `Rhs`; a missing dict key that the code defaults to `''`
  is the empty string, a missing key defaulted to `{}` is `Rhs.emptyDict`.
* Code that can raise an uncaught exception is modelled with `Option`
  (`none` = exception propagates) or with an explicit `exn` constructor.
-/

namespace NftHelper

/-- Python `" ".join` / `sep.join` on a list of strings. -/
def joinWith (sep : String) : List String → String
  | [] => ""
  | [x] => x
  | x :: y :: xs => x ++ sep ++ joinWith sep (y :: xs)

/-- Does the character list `h` start with `n`? -/
def startsWithL : List Char → List Char → Bool
  | _, [] => true
  | [], _ :: _ => false
  | a :: as, b :: bs => a == b && startsWithL as bs

/-- Does the character list `h` contain `n` as a contiguous run? -/
def containsL : List Char → List Char → Bool
  | [], n => n.isEmpty
  | a :: as, n => startsWithL (a :: as) n || containsL as n

/-- Python `needle in hay` on strings (substring containment). -/
def strContains (hay needle : String) : Bool :=
  containsL hay.data needle.data

/-- Python `str.strip()` (whitespace from both ends), on character lists. -/
def stripL (l : List Char) : List Char :=
  ((l.dropWhile Char.isWhitespace).reverse.dropWhile Char.isWhitespace).reverse

/-- Python `str.strip()` on strings. -/
def pyStrip (s : String) : String :=
  String.mk (stripL s.data)

/-- Value of a non-empty all-digit character list, else `none`. -/
def digitsVal (l : List Char) : Option Nat :=
  if l.isEmpty then none
  else if l.all Char.isDigit then
    some (l.foldl (fun a c => a * 10 + (c.toNat - 48)) 0)
  else none

/-- Python `int(s)`: optional surrounding whitespace, optional sign,
digits; `none` models a `ValueError`. -/
def pyInt? (s : String) : Option Int :=
  match stripL s.data with
  | '-' :: rest => (digitsVal rest).map (fun n => -(n : Int))
  | '+' :: rest => (digitsVal rest).map (fun n => (n : Int))
  | l => (digitsVal l).map (fun n => (n : Int))

/-- Python `str.split(c)` for a one-character separator, on lists. -/
def splitOnCharL (c : Char) : List Char → List (List Char)
  | [] => [[]]
  | a :: as =>
    if a == c then [] :: splitOnCharL c as
    else
      match splitOnCharL c as with
      | h :: t => (a :: h) :: t
      | [] => [[a]]

/-- Python `str.split('-')`. -/
def pySplitDash (s : String) : List String :=
  (splitOnCharL '-' s.data).map String.mk

/-- ASCII lower-casing of one character. -/
def lowerChar (c : Char) : Char :=
  if 65 ≤ c.toNat ∧ c.toNat ≤ 90 then Char.ofNat (c.toNat + 32) else c

/-- Python `str.lower()` (ASCII; the protocol names in play are ASCII). -/
def pyLower (s : String) : String :=
  String.mk (s.data.map lowerChar)

/-! ## Right-operand values

The JSON expression nodes carry right operands that the source probes
dynamically: plain strings, integers, `{val: X}` wrappers,
`{prefix: {addr, len}}` wrappers, or other dicts.  `Rhs` covers exactly
those shapes; `pfxW` carries `Option` fields because the source reads
`addr`/`len` with `dict.get` defaults. -/

inductive Rhs where
  /-- a JSON string -/
  | s (v : String)
  /-- a JSON integer -/
  | i (n : Int)
  /-- a dict whose first probed key is `val` -/
  | valW (v : Rhs)
  /-- a dict `{prefix: {addr?, len?}}` -/
  | pfxW (addr : Option String) (len : Option Int)
  /-- the empty dict `{}` (falsy in Python) -/
  | emptyDict
  /-- any other non-empty dict, carrying its Python `str()` rendering -/
  | otherDict (rep : String)
deriving DecidableEq, Repr

/-- Python `repr(v)` (for dicts identical to `str(v)`); dict reprs list
`addr` before `len`, matching the insertion order of the engine dump. -/
def Rhs.pyRepr : Rhs → String
  | .s v => "\x27" ++ v ++ "\x27"
  | .i n => toString n
  | .valW v => "\x7b\x27val\x27: " ++ v.pyRepr ++ "\x7d"
  | .pfxW a l =>
    "\x7b\x27prefix\x27: \x7b" ++
      (joinWith ", "
        ((match a with | some av => ["\x27addr\x27: \x27" ++ av ++ "\x27"] | none => []) ++
         (match l with | some lv => ["\x27len\x27: " ++ toString lv] | none => []))) ++
      "\x7d\x7d"
  | .emptyDict => "\x7b\x7d"
  | .otherDict rep => rep

/-- Python `str(v)` as used inside f-strings. -/
def Rhs.pyStr : Rhs → String
  | .s v => v
  | x => x.pyRepr

/-- Python truthiness of the value. -/
def Rhs.truthy : Rhs → Bool
  | .s v => v ≠ ""
  | .i n => n ≠ 0
  | .valW _ => true
  | .pfxW _ _ => true
  | .emptyDict => false
  | .otherDict _ => true

/-- Model of the `right_val` normalization in the `relational` branch
(src lines 1366-1379): strings pass through, `{val: X}` unwraps to `X`,
`{prefix: ...}` renders `addr/len` with defaults `''` and `0`, any other
value is `str()`-ed. -/
def rightValRel : Rhs → Rhs
  | .s v => .s v
  | .valW v => v
  | .pfxW a l => .s ((a.getD "") ++ "/" ++ toString (l.getD 0))
  | .i n => .s (toString n)
  | .emptyDict => .s (Rhs.pyStr .emptyDict)
  | .otherDict rep => .s rep

/-- Model of the `right_val` normalization in the `cmp` branch (src lines 1405-1416):
as in `relational`, except the `len` default is `''` (empty string). -/
def rightValCmp : Rhs → Rhs
  | .s v => .s v
  | .valW v => v
  | .pfxW a l =>
    .s ((a.getD "") ++ "/" ++ (match l with | some n => toString n | none => ""))
  | .i n => .s (toString n)
  | .emptyDict => .s (Rhs.pyStr .emptyDict)
  | .otherDict rep => .s rep

/-! ## Rule-expression nodes

One constructor per node kind the source's `elif` chain handles
(src lines 1327-1520).  The `left` operand of match-like kinds is probed
only for `payload.protocol` / `payload.field` with `''` defaults, so it
is flattened into two string fields. -/

/-- The `left` operand of a `meta` node: empty dict, a dict whose first
key is `meta` (carrying `meta.key`, default `''`), or any other
non-empty dict. -/
inductive MetaLeft where
  | mlEmpty
  | mlMeta (key : String)
  | mlOther
deriving DecidableEq, Repr

inductive Expr where
  | matchE (op : String) (protocol : String) (field : String) (right : Rhs) (negate : Bool)
  | relational (op : String) (protocol : String) (field : String) (right : Rhs) (negate : Bool)
  | cmp (op : String) (protocol : String) (field : String) (right : Rhs) (negate : Bool)
  | payloadE (protocol : String) (field : String) (value : Rhs)
  | meta (key : String) (negate : Bool) (left : MetaLeft) (right : Rhs)
  | ct (direction : String) (key : String)
  | accept
  | drop
  | reject
  | log
  | counter (packets : Int) (bytes : Int)
  | jump (target : String)
  | ret
  | xt (target : String)
  | snat
  | dnat
  | masquerade
  | redir
  /-- the empty dict node, skipped by `if not expr: continue` -/
  | emptyE
  /-- a node of a kind absent from the `elif` chain, silently skipped -/
  | unknown (kind : String)
deriving DecidableEq, Repr

/-- The loop state of `format_rule_expression`: the `parts` list, the
`port_info` string and the `action` string (src lines 1323-1325). -/
structure FmtState where
  parts : List String
  port_info : String
  action : String
deriving DecidableEq, Repr

def initState : FmtState := ⟨[], "", ""⟩

/-- One iteration of the `for expr in expr_list` loop
(src lines 1327-1520).  `none` models the uncaught `IndexError` raised by
`parts[-1] = ...` in the `meta` branch when `parts` is empty. -/
def stepExpr (st : FmtState) : Expr → Option FmtState
  | .matchE op protocol field right negate =>
    let neg := if negate then "!" else ""
    if field == "dport" || field == "sport" then
      some { st with port_info := neg ++ "端口 " ++ right.pyStr }
    else if protocol ≠ "" && field ≠ "" then
      some { st with parts := st.parts ++ [neg ++ protocol ++ " " ++ field ++ " " ++ right.pyStr] }
    else if right.truthy then
      some { st with parts := st.parts ++ [neg ++ op ++ " " ++ right.pyStr] }
    else some st
  | .relational op protocol field right negate =>
    let neg := if negate then "!" else ""
    let rv := rightValRel right
    if field == "dport" || field == "sport" then
      some { st with port_info := neg ++ "端口 " ++ rv.pyStr }
    else if protocol == "ip" && field == "daddr" then
      some { st with parts := st.parts ++ [neg ++ "ip daddr " ++ rv.pyStr] }
    else if protocol ≠ "" && field ≠ "" then
      some { st with parts := st.parts ++ [neg ++ protocol ++ " " ++ field ++ " " ++ rv.pyStr] }
    else if field ≠ "" then
      some { st with parts := st.parts ++ [neg ++ field ++ " " ++ rv.pyStr] }
    else if rv.truthy then
      some { st with parts := st.parts ++ [neg ++ op ++ " " ++ rv.pyStr] }
    else some st
  | .cmp op protocol field right negate =>
    let neg := if negate then "!" else ""
    let rv := rightValCmp right
    if field == "dport" || field == "sport" then
      some { st with port_info := neg ++ "端口 " ++ rv.pyStr }
    else if protocol ≠ "" && field ≠ "" then
      some { st with parts := st.parts ++ [neg ++ protocol ++ " " ++ field ++ " " ++ rv.pyStr] }
    else if field ≠ "" && rv.truthy then
      some { st with parts := st.parts ++ [neg ++ field ++ " " ++ rv.pyStr] }
    else if rv.truthy then
      some { st with parts := st.parts ++ [neg ++ op ++ " " ++ rv.pyStr] }
    else some st
  | .payloadE protocol field value =>
    if field == "dport" || field == "sport" then
      some { st with port_info := "端口 " ++ value.pyStr }
    else if protocol ≠ "" && field ≠ "" then
      some { st with parts := st.parts ++ [protocol ++ " " ++ field ++ " " ++ value.pyStr] }
    else some st
  | .meta key negate left right =>
    let p1 := if key ≠ "" then st.parts ++ ["meta " ++ key] else st.parts
    let neg := if negate then "!" else ""
    match
      (match left with
       | .mlMeta lk =>
         if lk ≠ "" then
           (if p1.isEmpty then none else some (p1.dropLast ++ [neg ++ lk]))
         else some p1
       | _ => some p1) with
    | none => none
    | some p2 =>
      match right with
      | .s v => some { st with parts := p2 ++ [neg ++ v] }
      | .valW v => some { st with parts := p2 ++ [neg ++ v.pyStr] }
      | .pfxW a l =>
        some { st with parts :=
          p2 ++ [neg ++ (a.getD "") ++ "/" ++ (match l with | some n => toString n | none => "")] }
      | _ => some { st with parts := p2 }
  | .ct direction key =>
    if direction ≠ "" && key ≠ "" then
      some { st with parts := st.parts ++ ["ct " ++ direction ++ " " ++ key] }
    else if key ≠ "" then
      some { st with parts := st.parts ++ ["ct " ++ key] }
    else some st
  | .accept => some { st with action := "放行" }
  | .drop => some { st with action := "拒绝" }
  | .reject => some { st with action := "拒绝" }
  | .log => some { st with parts := st.parts ++ ["LOG"] }
  | .counter packets bytes =>
    some { st with parts :=
      st.parts ++ ["计数器: " ++ toString packets ++ "包 " ++ toString bytes ++ "字节"] }
  | .jump target =>
    if target ≠ "" then some { st with parts := st.parts ++ ["跳转到 " ++ target] }
    else some st
  | .ret => some { st with parts := st.parts ++ ["返回"] }
  | .xt target =>
    if target ≠ "" then some { st with parts := st.parts ++ ["[" ++ target ++ "]"] }
    else some st
  | .snat => some { st with action := "源NAT" }
  | .dnat => some { st with action := "目标NAT" }
  | .masquerade => some { st with action := "伪装" }
  | .redir => some { st with action := "重定向" }
  | .emptyE => some st
  | .unknown _ => some st

/-- The whole `for` loop, threading the state. -/
def runExprs (st : FmtState) : List Expr → Option FmtState
  | [] => some st
  | e :: es =>
    match stepExpr st e with
    | none => none
    | some st' => runExprs st' es

/-- Final display assembly (src lines 1522-1540). -/
def assemble (st : FmtState) : String :=
  let result_parts :=
    (if st.port_info ≠ "" then [st.port_info] else []) ++
    (if st.parts ≠ [] then [joinWith " " st.parts] else []) ++
    (if st.action ≠ "" then [st.action] else [])
  if result_parts ≠ [] then joinWith " " result_parts
  else if st.parts ≠ [] then joinWith " " st.parts
  else "(复杂规则)"

/-- Model of `format_rule_expression(expr_list)` (src lines 1318-1540); `none`
models an uncaught exception escaping the function. -/
def format_rule_expression (l : List Expr) : Option String :=
  if l.isEmpty then some "(空规则)"
  else (runExprs initState l).map assemble

/-- The `port_info` string a node writes, if its branch writes one
(the four `field in ['dport', 'sport']` arms of the loop). -/
def portFrag : Expr → Option String
  | .matchE _ _ field right negate =>
    if field == "dport" || field == "sport" then
      some ((if negate then "!" else "") ++ "端口 " ++ right.pyStr)
    else none
  | .relational _ _ field right negate =>
    if field == "dport" || field == "sport" then
      some ((if negate then "!" else "") ++ "端口 " ++ (rightValRel right).pyStr)
    else none
  | .cmp _ _ field right negate =>
    if field == "dport" || field == "sport" then
      some ((if negate then "!" else "") ++ "端口 " ++ (rightValCmp right).pyStr)
    else none
  | .payloadE _ field value =>
    if field == "dport" || field == "sport" then
      some ("端口 " ++ value.pyStr)
    else none
  | _ => none

/-- Left-to-right accumulation of port fragments: each port-writing node
overwrites the accumulator, mirroring the loop's assignments. -/
def lastPortAux (acc : Option String) : List Expr → Option String
  | [] => acc
  | e :: es => lastPortAux (match portFrag e with | some f => some f | none => acc) es

/-- The port fragment of the last port-writing node of the list, if any. -/
def lastPortFrag (l : List Expr) : Option String :=
  lastPortAux none l

/-- Whether a node's branch can touch the loop state at all (set the
port descriptor, append or replace a qualifier fragment, or set the
action label), read off the source's branch conditions. -/
def contributesAnchor : Expr → Bool
  | .matchE _ protocol field right _ =>
    field == "dport" || field == "sport" || (protocol ≠ "" && field ≠ "") || right.truthy
  | .relational _ _ field right _ =>
    field ≠ "" || (rightValRel right).truthy
  | .cmp _ protocol field right _ =>
    field == "dport" || field == "sport" || (protocol ≠ "" && field ≠ "") ||
      (rightValCmp right).truthy
  | .payloadE protocol field _ =>
    field == "dport" || field == "sport" || (protocol ≠ "" && field ≠ "")
  | .meta key _ left right =>
    key ≠ "" ||
    (match left with | .mlMeta lk => lk ≠ "" | _ => false) ||
    (match right with | .s _ => true | .valW _ => true | .pfxW _ _ => true | _ => false)
  | .ct _ key => key ≠ ""
  | .jump target => target ≠ ""
  | .xt target => target ≠ ""
  | .emptyE => false
  | .unknown _ => false
  | _ => true

/-! ## Intent-to-command synthesizer -/

/-- The `port` argument of `generate_nft_command`: the source passes
either a string (single port or dash range) or a list of port strings
(preset `ports`, or a comma-separated multi-port entry). -/
inductive PortArg where
  | str (s : String)
  | list (ps : List String)
deriving DecidableEq, Repr

/-- Python `str(port)`: a string passes through; a list renders as its
Python repr `['a', 'b']`. -/
def pyStrPort : PortArg → String
  | .str s => s
  | .list ps =>
    "[" ++ joinWith ", " (ps.map (fun p => "\x27" ++ p ++ "\x27")) ++ "]"

/-- Python `for p in port`: iterating a list yields its elements,
iterating a string yields its one-character strings. -/
def portIter : PortArg → List String
  | .list ps => ps
  | .str s => s.data.map (fun c => String.mk [c])

/-- Result of `generate_nft_command`: a directive list, Python `None`,
or an uncaught exception (bad unpack / failed `int()`). -/
inductive GenResult where
  | exn
  | noneR
  | someR (cmds : List String)
deriving DecidableEq, Repr

/-- Model of `validate_protocol_port(protocol, port)` (src lines 689-699),
returning the `(bool, message)` pair.  `port` is `None` or a string or
a list of strings. -/
def validate_protocol_port (protocol : String) (port : Option PortArg) : Bool × String :=
  if ["icmp", "igmp", "esp", "ah", "ip", "ipv6-icmp"].contains (pyLower protocol) then
    (false, "协议 \x27" ++ protocol ++ "\x27 不需要端口参数")
  else if port.isNone ||
      (match port with | some (.list ps) => ps.length > 1 | _ => false) then
    (false, "协议 \x27" ++ protocol ++ "\x27 需要指定单个端口")
  else (true, "验证通过")

/-- The tail of the ad-hoc path (src lines 730-736): prepend the
`ip daddr` clause when the address argument is truthy. -/
def adHocFinish (action : String) (ip_address : Option String) (port_part : String) :
    GenResult :=
  match ip_address with
  | some ip =>
    if ip ≠ "" then
      .someR ["nft add rule ip filter input ip daddr " ++ ip ++ " " ++ port_part ++ " " ++ action]
    else
      .someR ["nft add rule ip filter input " ++ port_part ++ " " ++ action]
  | none => .someR ["nft add rule ip filter input " ++ port_part ++ " " ++ action]

/-- Model of `generate_nft_command(action, protocol, port, is_full_mode, ip_address)`
(src lines 701-736). -/
def generate_nft_command (action protocol : String) (port : PortArg)
    (is_full_mode : Bool) (ip_address : Option String) : GenResult :=
  if is_full_mode then
    if (match port with | .str s => s == "53" | .list _ => false) && protocol == "both" then
      .someR ["nft add rule ip filter input tcp dport 53 " ++ action,
              "nft add rule ip filter input udp dport 53 " ++ action]
    else
      .someR ((portIter port).map (fun p =>
        "nft add rule ip filter input " ++
          (if protocol == "tcp" then "tcp dport " ++ p else "udp dport " ++ p) ++
          " " ++ action))
  else if pyLower protocol == "icmp" || pyLower protocol == "ipv6-icmp" then
    .someR ["nft add rule ip filter input " ++ protocol ++ " " ++ action]
  else if (pyStrPort port).data.contains '-' then
    match pySplitDash (pyStrPort port) with
    | [st, en] =>
      match pyInt? (pyStrip st), pyInt? (pyStrip en) with
      | some s, some e =>
        if e < s then .noneR
        else
          adHocFinish action ip_address
            (if protocol == "tcp" then
              "tcp dport " ++ toString s ++ ":" ++ toString e
            else
              "udp dport " ++ toString s ++ ":" ++ toString e)
      | _, _ => .exn
    | _ => .exn
  else
    adHocFinish action ip_address (protocol ++ " dport " ++ pyStrPort port)

/-! ## Ruleset forest and the query layer -/

/-- A `rule` entry of the `nft -j list ruleset` dump: `family`, `table`,
`chain` read with `''` defaults, the engine `handle` (absent handles are
read with a `''` default, modelled as `none`), and the `expr` list. -/
structure Rule where
  family : String
  table : String
  chain : String
  handle : Option Int
  expr : List Expr
deriving DecidableEq, Repr

/-- A top-level entry of the dump: a `rule` entry or anything else
(table/chain/... entries, skipped by every scan). -/
inductive Item where
  | rule (r : Rule)
  | other
deriving DecidableEq, Repr

/-- A match record built by `search_rules_by_port` (src lines 986-994). -/
structure SearchRec where
  family : String
  table : String
  chain : String
  rule : String
  port_info : String
  handle : Option Int
deriving DecidableEq, Repr

/-- Model of `int(right)` as applied at src line 980: an int passes through, a
string is parsed, anything else raises (`none`). -/
def rightAsInt : Rhs → Option Int
  | .i n => some n
  | .s v => pyInt? v
  | _ => none

/-- The inner `for e in expr` scan of `search_rules_by_port`
(src lines 970-984): only nodes with a `match` key are probed; the scan
breaks at the first node whose payload protocol/field equal
`protocol`/`dport` and whose right value equals the port.  Outer `none`
models the exception from a failed `int()` conversion. -/
def scanMatch (protocol : String) (port_int : Int) : List Expr → Option (Option String)
  | [] => some none
  | .matchE _ p f right _ :: rest =>
    if p == protocol && f == "dport" then
      match rightAsInt right with
      | none => none
      | some v =>
        if v == port_int then some (some (p ++ " dport " ++ toString v))
        else scanMatch protocol port_int rest
    else scanMatch protocol port_int rest
  | _ :: rest => scanMatch protocol port_int rest

/-- Model of `search_rules_by_port(port, protocol)` (src lines 940-1000), applied
to the already-parsed forest; the dump query, JSON parsing and the
`int(port)` coercion of an integer argument are identities here.
`none` models the `except` arm returning Python `None`. -/
def search_rules_by_port (items : List Item) (port : Int) (protocol : String) :
    Option (List SearchRec) :=
  match items with
  | [] => some []
  | .other :: rest => search_rules_by_port rest port protocol
  | .rule r :: rest =>
    match scanMatch protocol port r.expr with
    | none => none
    | some none => search_rules_by_port rest port protocol
    | some (some pinfo) =>
      match format_rule_expression r.expr with
      | none => none
      | some desc =>
        (search_rules_by_port rest port protocol).map
          (fun l => ⟨r.family, r.table, r.chain, desc, pinfo, r.handle⟩ :: l)

/-- A node that cannot make the formatter raise: the only raising shape
is a `meta` node with an empty `key` and a non-empty `left.meta.key`
(whose `parts[-1]` assignment fails on an empty list). -/
def metaSafe : Expr → Bool
  | .meta key _ (.mlMeta lk) _ => key ≠ "" || lk == ""
  | _ => true

/-- A node that cannot fire the port scan of `search_rules_by_port` for
protocol `pr`: either not a match-kind node, or not a `pr`/`dport`
payload. -/
def noDportMatch (pr : String) : Expr → Bool
  | .matchE _ p f _ _ => !(p == pr && f == "dport")
  | _ => true

/-- An item none of whose nodes can fire the port scan for `pr`. -/
def itemClean (pr : String) : Item → Bool
  | .rule r => r.expr.all (noDportMatch pr)
  | .other => true

/-- The managed-triple test of the query layer (src lines 1305, 1567):
chain `input`, family `ip`, table `filter`. -/
def isManagedRule (r : Rule) : Bool :=
  r.chain == "input" && r.family == "ip" && r.table == "filter"

def isManagedItem : Item → Bool
  | .rule r => isManagedRule r
  | .other => false

/-- The summary pair of `get_rule_summary`. -/
structure Summary where
  input_rules : Nat
  input_port_rules : Nat
deriving DecidableEq, Repr

/-- The counting loop of `get_rule_summary` (src lines 1564-1572):
managed rules are counted, and those whose formatted description
contains `端口` are counted again.  `none` models an exception from the
formatter, caught by the outer `try` (the function then returns `None`). -/
def summGo : List Item → Option Summary
  | [] => some ⟨0, 0⟩
  | .other :: rest => summGo rest
  | .rule r :: rest =>
    if isManagedRule r then
      match format_rule_expression r.expr with
      | none => none
      | some desc =>
        (summGo rest).map (fun s =>
          ⟨s.input_rules + 1,
           s.input_port_rules + (if strContains desc "端口" then 1 else 0)⟩)
    else summGo rest

/-- Model of `get_rule_summary(ruleset_data)` (src lines 1542-1580) on the parsed
dump, whose `nftables` entry is the item list (a missing entry is the
empty list: both are falsy). -/
def get_rule_summary (nftables : List Item) : Option Summary :=
  if nftables.isEmpty then some ⟨0, 0⟩
  else summGo nftables

/-! ## Apply-with-remediation orchestrator -/

/-- Result of one external command run. -/
structure RunRes where
  returncode : Int
  stdout : String
  stderr : String
deriving DecidableEq, Repr

/-- Model of `error_msg = result.stderr.strip() if result.stderr else "未知错误"`
(src line 839). -/
def errMsg (r : RunRes) : String :=
  if r.stderr ≠ "" then pyStrip r.stderr else "未知错误"

/-- The missing-resource classification (src line 843). -/
def isMissingResource (m : String) : Bool :=
  strContains m "No such file or directory" || strContains m "Could not process rule"

/-- Observable events of the orchestrator: running a directive (with its
attempt index for that directive) and invoking
`init_nftables_filter_table`. -/
inductive Ev where
  | run (cmd : String) (attempt : Nat)
  | provision
deriving DecidableEq, Repr

/-- The body of the `for cmd in commands` loop of `execute_command`
(src lines 827-861), against an environment `env` giving the result of
the `attempt`-th run of each directive.  Returns the emitted event trace
and whether the directive counts as succeeded. -/
def processCmd (env : String → Nat → RunRes) (cmd : String) : List Ev × Bool :=
  let r := env cmd 0
  if r.returncode == 0 then ([.run cmd 0], true)
  else if isMissingResource (errMsg r) then
    ([.run cmd 0, .provision, .run cmd 1], (env cmd 1).returncode == 0)
  else ([.run cmd 0], false)

/-- The list branch of `execute_command` (src lines 823-864): the event
trace, the `success_count`, and `failed_commands`. -/
def execute_command (env : String → Nat → RunRes) : List String → List Ev × Nat × List String
  | [] => ([], 0, [])
  | c :: cs =>
    let pc := processCmd env c
    let rest := execute_command env cs
    (pc.1 ++ rest.1,
     (if pc.2 then 1 else 0) + rest.2.1,
     (if pc.2 then [] else [c]) ++ rest.2.2)

/-- A concrete environment for witnesses: directive `"c1"` fails its
first run with a missing-resource message and succeeds on retry;
directive `"c2"` fails with an unrelated message. -/
def envW : String → Nat → RunRes :=
  fun cmd attempt =>
    if cmd == "c1" then
      if attempt == 0 then ⟨1, "", "Error: Could not process rule: No such file or directory"⟩
      else ⟨0, "", ""⟩
    else if cmd == "c2" then ⟨1, "", "Error: syntax error"⟩
    else ⟨0, "", ""⟩

/-- A concrete forest for witnesses: one managed port rule, one managed
non-port rule, one foreign rule. -/
def forestW : List Item :=
  [.rule ⟨"ip", "filter", "input", some 3, [.matchE "==" "udp" "dport" (.i 53) false, .drop]⟩,
   .rule ⟨"ip", "filter", "input", some 4, [.accept]⟩,
   .rule ⟨"inet", "t", "c", some 5, [.matchE "==" "tcp" "dport" (.i 22) false]⟩]

/-! ## Helper lemmas -/

theorem startsWithL_self_append (n t : List Char) : startsWithL (n ++ t) n = true := by
  induction n with
  | nil => simp only [List.nil_append]; cases t <;> rfl
  | cons a as ih => simp [startsWithL, ih]

theorem containsL_nil_needle (l : List Char) : containsL l [] = true := by
  cases l <;> simp [containsL, startsWithL, List.isEmpty]

theorem containsL_self_middle (x n y : List Char) : containsL (x ++ (n ++ y)) n = true := by
  induction x with
  | nil =>
    cases n with
    | nil => simpa using containsL_nil_needle y
    | cons b bs =>
      show containsL ((b :: bs) ++ y) (b :: bs) = true
      simp only [containsL, List.cons_append, Bool.or_eq_true]
      exact Or.inl (by simpa using startsWithL_self_append (b :: bs) y)
  | cons a as ih => simp [containsL, ih]

theorem strContains_middle (x n y : String) : strContains (x ++ n ++ y) n = true := by
  unfold strContains
  rw [String.data_append, String.data_append, List.append_assoc]
  exact containsL_self_middle x.data n.data y.data

theorem joinWith_cons_ex (sep a : String) (l : List String) :
    ∃ t, joinWith sep (a :: l) = a ++ t := by
  cases l with
  | nil => exact ⟨"", by simp [joinWith]⟩
  | cons b bs =>
    exact ⟨sep ++ joinWith sep (b :: bs), by simp [joinWith, String.append_assoc]⟩

/-! ## Claim C1 -/

/-- C1: synthesizing the dns preset, i.e. calling `generate_nft_command`
in full mode with protocol `both` and the preset's port list `['53']`,
does NOT yield the claimed two directives: the dns guard compares the
port list against the string `'53'`, so it never fires for the preset's
list form, and the fallback loop emits a single `udp` directive.  The
second conjunct shows the guard's intended behaviour does produce the
claimed pair when the port is passed as the bare string `'53'`, which no
caller does. -/
theorem c1_dns_preset_divergence :
    generate_nft_command "drop" "both" (.list ["53"]) true none =
      .someR ["nft add rule ip filter input udp dport 53 drop"] ∧
    generate_nft_command "drop" "both" (.str "53") true none =
      .someR ["nft add rule ip filter input tcp dport 53 drop",
              "nft add rule ip filter input udp dport 53 drop"] := by
  constructor <;> decide

/-! ## Claim C5 -/

/-- C5 counterexample: the claim says the compatibility check succeeds
for a no-port-family protocol exactly when no port is supplied, but
`validate_protocol_port("icmp", None)` fails. -/
theorem c5_counterexample :
    (validate_protocol_port "icmp" none).1 = false := by decide

/-- C5 (amended): the check fails unconditionally for a protocol of the
no-port family (even with no port supplied); for every other protocol it
succeeds iff a port is supplied and it is not a multi-member list (a
single port string, a range string, or a one-member list all pass). -/
theorem c5_compat_characterization :
    ∀ (protocol : String) (port : Option PortArg),
      (validate_protocol_port protocol port).1 = true ↔
        (["icmp", "igmp", "esp", "ah", "ip", "ipv6-icmp"].contains (pyLower protocol) = false ∧
         port.isNone = false ∧
         (match port with | some (.list ps) => ps.length ≤ 1 | _ => True)) := by
  intro protocol port
  unfold validate_protocol_port
  rcases port with _ | (s | ps)
  · split <;> simp
  · split <;> simp_all
  · split
    · simp_all
    · split <;> simp_all

/-! ## Claim C3 -/

/-- C3 counterexample: with the all-addresses default `0.0.0.0/0`
supplied as the address, the claim says the directive contains no
address clause, but the generated directive carries
`ip daddr 0.0.0.0/0` (the source only tests the address for
truthiness). -/
theorem c3_counterexample :
    generate_nft_command "accept" "tcp" (.str "80") false (some "0.0.0.0/0") =
      .someR ["nft add rule ip filter input ip daddr 0.0.0.0/0 tcp dport 80 accept"] ∧
    strContains "nft add rule ip filter input ip daddr 0.0.0.0/0 tcp dport 80 accept"
      "ip daddr" = true := by
  constructor <;> decide

/-- C3 (amended): in ad-hoc non-range synthesis, the directive carries a
destination-address clause ahead of the port qualifier iff an address is
supplied and non-empty — including when it equals the all-addresses
default `0.0.0.0/0`; only an absent (`None`) or empty address yields a
directive without the clause. -/
theorem c3_address_clause :
    ∀ (action protocol p : String) (oip : Option String),
      pyLower protocol ≠ "icmp" → pyLower protocol ≠ "ipv6-icmp" →
      p.data.contains '-' = false →
      generate_nft_command action protocol (.str p) false oip =
        .someR [(match oip with
                 | some ip =>
                   if ip ≠ "" then
                     "nft add rule ip filter input ip daddr " ++ ip ++ " " ++
                       protocol ++ " dport " ++ p ++ " " ++ action
                   else
                     "nft add rule ip filter input " ++ protocol ++ " dport " ++ p ++ " " ++ action
                 | none =>
                   "nft add rule ip filter input " ++ protocol ++ " dport " ++ p ++ " " ++ action)] := by
  intro action protocol p oip h1 h2 hdash
  unfold generate_nft_command
  simp only [Bool.false_eq_true, if_false, pyStrPort, hdash,
    beq_iff_eq, h1, h2, Bool.or_eq_true, false_or, if_neg, adHocFinish]
  rcases oip with _ | ip
  · simp [adHocFinish, String.append_assoc]
  · by_cases hip : ip = "" <;> simp [adHocFinish, hip, String.append_assoc]

/-- C3 witness: the amended statement at a concrete input. -/
theorem c3_address_clause_witness :
    generate_nft_command "accept" "tcp" (.str "80") false (some "10.1.2.3") =
      .someR ["nft add rule ip filter input ip daddr 10.1.2.3 tcp dport 80 accept"] := by
  have h := c3_address_clause "accept" "tcp" "80" (some "10.1.2.3")
    (by decide) (by decide) (by decide)
  simpa using h

/-! ## Claim C4 -/

/-- C4 counterexample: for protocol `sctp` with range `8080-8090` the
claim promises a `sctp dport 8080:8090` qualifier, but the range path
hard-codes `tcp`/`udp` and emits `udp dport 8080:8090`. -/
theorem c4_counterexample :
    generate_nft_command "accept" "sctp" (.str "8080-8090") false none =
      .someR ["nft add rule ip filter input udp dport 8080:8090 accept"] ∧
    strContains "nft add rule ip filter input udp dport 8080:8090 accept" "sctp" = false := by
  constructor <;> decide

/-- C4 (amended): for a dash-form range port with start ≤ end, ad-hoc
synthesis renders the port qualifier as `tcp dport start:end` when the
protocol is exactly `tcp` and as `udp dport start:end` for every other
protocol — not with the supplied protocol name. -/
theorem c4_range_qualifier :
    ∀ (action protocol p a b : String) (x y : Int),
      pyLower protocol ≠ "icmp" → pyLower protocol ≠ "ipv6-icmp" →
      p.data.contains '-' = true →
      pySplitDash p = [a, b] →
      pyInt? (pyStrip a) = some x → pyInt? (pyStrip b) = some y →
      x ≤ y →
      generate_nft_command action protocol (.str p) false none =
        .someR ["nft add rule ip filter input " ++
                  (if protocol == "tcp" then "tcp" else "udp") ++
                  " dport " ++ toString x ++ ":" ++ toString y ++ " " ++ action] := by
  intro action protocol p a b x y h1 h2 hdash hsplit hx hy hle
  unfold generate_nft_command
  have e1 : (pyLower protocol == "icmp") = false := by simpa using h1
  have e2 : (pyLower protocol == "ipv6-icmp") = false := by simpa using h2
  simp only [Bool.false_eq_true, if_false, e1, e2, Bool.or_self, pyStrPort, hdash, if_true,
    hsplit, hx, hy]
  rw [if_neg (by omega)]
  by_cases hp : protocol == "tcp" <;>
    simp [adHocFinish, hp, String.append_assoc] <;>
    rw [← String.append_assoc] <;> congr 1

/-- C4 witness: the amended statement at a concrete input. -/
theorem c4_range_qualifier_witness :
    generate_nft_command "accept" "dccp" (.str "8080-8090") false none =
      .someR ["nft add rule ip filter input udp dport 8080:8090 accept"] := by
  have h := c4_range_qualifier "accept" "dccp" "8080-8090" "8080" "8090" 8080 8090
    (by decide) (by decide) (by decide) (by decide) (by decide) (by decide) (by decide)
  simpa using h

/-! ## Claim C9 -/

/-- C9: in ad-hoc (non-full-mode) synthesis with a protocol outside the
ICMP pair (the only protocols the generator handles before the port is
examined — the caller's `validate_protocol_port` gate already excludes
them whenever a port is supplied), a dash-form range port whose start
exceeds its end makes `generate_nft_command` return Python `None`
(no directive list at all). -/
theorem c9_descending_range_none :
    ∀ (action protocol p a b : String) (oip : Option String) (x y : Int),
      pyLower protocol ≠ "icmp" → pyLower protocol ≠ "ipv6-icmp" →
      p.data.contains '-' = true →
      pySplitDash p = [a, b] →
      pyInt? (pyStrip a) = some x → pyInt? (pyStrip b) = some y →
      y < x →
      generate_nft_command action protocol (.str p) false oip = .noneR := by
  intro action protocol p a b oip x y h1 h2 hdash hsplit hx hy hlt
  unfold generate_nft_command
  have e1 : (pyLower protocol == "icmp") = false := by simpa using h1
  have e2 : (pyLower protocol == "ipv6-icmp") = false := by simpa using h2
  simp only [Bool.false_eq_true, if_false, e1, e2, Bool.or_self, pyStrPort, hdash, if_true,
    hsplit, hx, hy]
  rw [if_pos hlt]

/-- C9 witness: a concrete descending range yields Python `None`. -/
theorem c9_descending_range_none_witness :
    generate_nft_command "accept" "tcp" (.str "9090-8080") false none = .noneR := by
  exact c9_descending_range_none "accept" "tcp" "9090-8080" "9090" "8080" none 9090 8080
    (by decide) (by decide) (by decide) (by decide) (by decide) (by decide) (by decide)

/-! ## Claim C6 -/

theorem execute_command_count (env : String → Nat → RunRes) :
    ∀ cs : List String,
      (execute_command env cs).2.1 + (execute_command env cs).2.2.length = cs.length := by
  intro cs
  induction cs with
  | nil => rfl
  | cons c cs ih =>
    simp only [execute_command]
    cases h : (processCmd env c).2 <;> simp <;> omega

/-- C6: per directive, a first run whose exit code is non-zero and whose
error text is of the missing-resource class triggers exactly one
provisioning event and exactly one re-run of the same directive, the
directive counting as succeeded iff the retry exits zero; a non-zero
first run of any other class yields no provisioning, no retry, and a
failed directive; the batch processes a directive list head-first with
the tail processed regardless of the head's outcome, and succeeded plus
failed always account for every attempted directive. -/
theorem c6_remediation :
    ∀ (env : String → Nat → RunRes) (cmd : String) (cs : List String),
      (¬ (env cmd 0).returncode = 0 → isMissingResource (errMsg (env cmd 0)) = true →
        processCmd env cmd =
          ([.run cmd 0, .provision, .run cmd 1], (env cmd 1).returncode == 0)) ∧
      (¬ (env cmd 0).returncode = 0 → isMissingResource (errMsg (env cmd 0)) = false →
        processCmd env cmd = ([.run cmd 0], false)) ∧
      (execute_command env (cmd :: cs) =
        ((processCmd env cmd).1 ++ (execute_command env cs).1,
         (if (processCmd env cmd).2 then 1 else 0) + (execute_command env cs).2.1,
         (if (processCmd env cmd).2 then [] else [cmd]) ++ (execute_command env cs).2.2)) ∧
      ((execute_command env cs).2.1 + (execute_command env cs).2.2.length = cs.length) := by
  intro env cmd cs
  refine ⟨?_, ?_, rfl, execute_command_count env cs⟩
  · intro hrc hmiss
    unfold processCmd
    rw [if_neg (by simpa using hrc), if_pos hmiss]
  · intro hrc hmiss
    unfold processCmd
    rw [if_neg (by simpa using hrc), if_neg (by simp [hmiss])]

/-- C6 witness: the remediation behaviour on the concrete environment
`envW` (`c1` fails first with a missing-resource message then succeeds;
`c2` fails with an unrelated message). -/
theorem c6_remediation_witness :
    processCmd envW "c1" = ([.run "c1" 0, .provision, .run "c1" 1], true) ∧
    processCmd envW "c2" = ([.run "c2" 0], false) ∧
    execute_command envW ["c1", "c2"] =
      ([.run "c1" 0, .provision, .run "c1" 1, .run "c2" 0], 1, ["c2"]) := by
  have h1 := (c6_remediation envW "c1" []).1 (by decide) (by decide)
  have h2 := (c6_remediation envW "c2" []).2.1 (by decide) (by decide)
  refine ⟨by rw [h1]; decide, h2, by decide⟩

/-! ## Formatter lemmas -/

theorem stepExpr_port (e : Expr) (st st' : FmtState) (h : stepExpr st e = some st') :
    st'.port_info = (portFrag e).getD st.port_info := by
  cases e <;>
    first
      | (simp only [stepExpr, portFrag] at h ⊢;
         split_ifs at h ⊢ <;> (injection h with h; subst h; simp))
      | (simp only [stepExpr, portFrag] at h ⊢;
         split_ifs at h <;> (injection h with h; subst h; simp))
      | (simp only [stepExpr, portFrag] at h ⊢;
         injection h with h; subst h; simp)
      | (rename_i key negate left right
         cases left <;> cases right <;>
           simp only [stepExpr, portFrag] at h ⊢ <;>
           (try split_ifs at h) <;>
           first
             | exact (Option.noConfusion h)
             | (injection h with h; subst h; simp))

theorem lastPortAux_acc :
    ∀ (es : List Expr) (acc : Option String),
      lastPortAux acc es =
        match lastPortAux none es with
        | some f => some f
        | none => acc := by
  intro es
  induction es with
  | nil => intro acc; rfl
  | cons e es ih =>
    intro acc
    simp only [lastPortAux]
    rw [ih, ih (match portFrag e with | some f => some f | none => none)]
    cases portFrag e <;> cases lastPortAux none es <;> rfl

theorem runExprs_port :
    ∀ (l : List Expr) (st st' : FmtState), runExprs st l = some st' →
      st'.port_info = (lastPortFrag l).getD st.port_info := by
  intro l
  induction l with
  | nil =>
    intro st st' h
    simp only [runExprs, Option.some.injEq] at h
    subst h
    rfl
  | cons e es ih =>
    intro st st' h
    simp only [runExprs] at h
    cases hstep : stepExpr st e with
    | none => rw [hstep] at h; exact absurd h (by simp)
    | some st₁ =>
      rw [hstep] at h
      have hport := stepExpr_port e st st₁ hstep
      have hrec := ih st₁ st' h
      unfold lastPortFrag
      simp only [lastPortAux]
      rw [lastPortAux_acc es (match portFrag e with | some f => some f | none => none)]
      unfold lastPortFrag at hrec
      cases hlast : lastPortAux none es with
      | some f => rw [hlast] at hrec; simp at hrec ⊢; cases portFrag e <;> simpa using hrec
      | none =>
        rw [hlast] at hrec
        simp at hrec
        rw [hrec, hport]
        cases portFrag e <;> rfl

theorem stepExpr_id_of_not_contrib (e : Expr) (st : FmtState)
    (h : contributesAnchor e = false) : stepExpr st e = some st := by
  cases e with
  | matchE op protocol field right negate =>
    simp only [contributesAnchor] at h
    simp only [stepExpr]
    split_ifs <;> simp_all
  | relational op protocol field right negate =>
    simp only [contributesAnchor] at h
    simp only [stepExpr]
    split_ifs <;> simp_all
  | cmp op protocol field right negate =>
    simp only [contributesAnchor] at h
    simp only [stepExpr]
    split_ifs <;> simp_all
  | payloadE protocol field value =>
    simp only [contributesAnchor] at h
    simp only [stepExpr]
    split_ifs <;> simp_all
  | meta key negate left right =>
    simp only [contributesAnchor] at h
    cases left <;> cases right <;> simp only [stepExpr] <;> (try split_ifs) <;> simp_all
  | ct direction key =>
    simp only [contributesAnchor] at h
    simp only [stepExpr]
    split_ifs <;> simp_all
  | jump target =>
    simp only [contributesAnchor] at h
    simp only [stepExpr]
    split_ifs <;> simp_all
  | xt target =>
    simp only [contributesAnchor] at h
    simp only [stepExpr]
    split_ifs <;> simp_all
  | emptyE => rfl
  | unknown kind => rfl
  | accept => simp [contributesAnchor] at h
  | drop => simp [contributesAnchor] at h
  | reject => simp [contributesAnchor] at h
  | log => simp [contributesAnchor] at h
  | counter packets bytes => simp [contributesAnchor] at h
  | ret => simp [contributesAnchor] at h
  | snat => simp [contributesAnchor] at h
  | dnat => simp [contributesAnchor] at h
  | masquerade => simp [contributesAnchor] at h
  | redir => simp [contributesAnchor] at h

theorem runExprs_id :
    ∀ (l : List Expr) (st : FmtState),
      (∀ e ∈ l, contributesAnchor e = false) → runExprs st l = some st := by
  intro l
  induction l with
  | nil => intro st _; rfl
  | cons e es ih =>
    intro st hall
    have he : contributesAnchor e = false := hall e (by simp)
    simp only [runExprs, stepExpr_id_of_not_contrib e st he]
    exact ih st (fun x hx => hall x (by simp [hx]))

/-! ## Claim C2 -/

/-- C2 counterexample: with two destination-port match nodes (22 then
80), the formatted rule's port descriptor is that of the SECOND node —
the claim's first-match-wins rule would have kept `端口 22`, as the
one-node list shows. -/
theorem c2_counterexample :
    format_rule_expression
      [.matchE "==" "tcp" "dport" (.i 22) false,
       .matchE "==" "tcp" "dport" (.i 80) false] = some "端口 80" ∧
    format_rule_expression [.matchE "==" "tcp" "dport" (.i 22) false] = some "端口 22" := by
  constructor <;> decide

/-- C2 (amended): the LAST node (in list order) whose payload field is
`dport` or `sport` — under the match, relational, cmp, or payload kinds —
determines the port descriptor of the formatted rule: whenever the loop
completes with state `st`, `st.port_info` is the port fragment of the
last port-writing node (or the initial empty descriptor if there is
none), and the formatted rule is assembled from that state. -/
theorem c2_last_port_node_wins :
    ∀ (l : List Expr) (st' : FmtState),
      runExprs initState l = some st' →
      st'.port_info = (lastPortFrag l).getD "" ∧
      format_rule_expression l =
        (if l.isEmpty then some "(空规则)" else some (assemble st')) := by
  intro l st' h
  refine ⟨runExprs_port l initState st' h, ?_⟩
  unfold format_rule_expression
  cases hl : l.isEmpty <;> simp [hl, h]

/-- C2 witness: the amended statement at the concrete two-node input. -/
theorem c2_last_port_node_wins_witness :
    (⟨[], "端口 80", ""⟩ : FmtState).port_info =
      (lastPortFrag
        [.matchE "==" "tcp" "dport" (.i 22) false,
         .matchE "==" "tcp" "dport" (.i 80) false]).getD "" ∧
    format_rule_expression
      [.matchE "==" "tcp" "dport" (.i 22) false,
       .matchE "==" "tcp" "dport" (.i 80) false] =
      (if ([Expr.matchE "==" "tcp" "dport" (.i 22) false,
            Expr.matchE "==" "tcp" "dport" (.i 80) false] : List Expr).isEmpty then
        some "(空规则)"
      else some (assemble ⟨[], "端口 80", ""⟩)) := by
  exact c2_last_port_node_wins
    [.matchE "==" "tcp" "dport" (.i 22) false, .matchE "==" "tcp" "dport" (.i 80) false]
    ⟨[], "端口 80", ""⟩ (by decide)

/-! ## Claim C7 -/

/-- C7: formatting an empty expression list yields the empty-rule
sentinel `(空规则)`, and formatting a non-empty list none of whose nodes
can contribute a port descriptor, a qualifier fragment, or an action
label yields the complex-rule sentinel `(复杂规则)`. -/
theorem c7_sentinels :
    format_rule_expression [] = some "(空规则)" ∧
    ∀ l : List Expr, l ≠ [] → (∀ e ∈ l, contributesAnchor e = false) →
      format_rule_expression l = some "(复杂规则)" := by
  refine ⟨rfl, ?_⟩
  intro l hne hc
  unfold format_rule_expression
  rw [if_neg (by simpa using hne)]
  rw [runExprs_id l initState hc]
  rfl

/-- C7 witness: the sentinel on a concrete one-node list of an
unrecognized kind. -/
theorem c7_sentinels_witness :
    format_rule_expression [Expr.unknown "quota"] = some "(复杂规则)" :=
  c7_sentinels.2 [Expr.unknown "quota"] (by decide) (by decide)

/-! ## Claim C10 -/

theorem summGo_le :
    ∀ (items : List Item) (s : Summary), summGo items = some s →
      s.input_port_rules ≤ s.input_rules := by
  intro items
  induction items with
  | nil =>
    intro s h
    simp only [summGo, Option.some.injEq] at h
    subst h; simp
  | cons i rest ih =>
    intro s h
    cases i with
    | other => exact ih s h
    | rule r =>
      simp only [summGo] at h
      split at h
      · cases hfmt : format_rule_expression r.expr with
        | none => rw [hfmt] at h; exact absurd h (by simp)
        | some desc =>
          rw [hfmt] at h
          cases hrec : summGo rest with
          | none => rw [hrec] at h; exact absurd h (by simp)
          | some s₀ =>
            rw [hrec] at h
            simp only [Option.map_some', Option.some.injEq] at h
            subst h
            have := ih s₀ hrec
            simp only []
            split <;> simp <;> omega
      · exact ih s h

theorem summGo_filter :
    ∀ items : List Item, summGo (items.filter isManagedItem) = summGo items := by
  intro items
  induction items with
  | nil => rfl
  | cons i rest ih =>
    cases i with
    | other => simpa [List.filter, isManagedItem] using ih
    | rule r =>
      by_cases hm : isManagedRule r
      · simp [List.filter, isManagedItem, hm, summGo, ih]
      · simp [List.filter, isManagedItem, hm, summGo, ih]

/-- C10: for every parsed ruleset forest, whenever `get_rule_summary`
returns counts, the count of managed port rules never exceeds the count
of managed rules; and both counts are computed from the managed triple
(chain `input`, family `ip`, table `filter`) alone — discarding every
other entry of the forest leaves the summary unchanged. -/
theorem c10_summary_bounds :
    (∀ (items : List Item) (s : Summary),
      get_rule_summary items = some s → s.input_port_rules ≤ s.input_rules) ∧
    (∀ items : List Item,
      get_rule_summary (items.filter isManagedItem) = get_rule_summary items) := by
  constructor
  · intro items s h
    unfold get_rule_summary at h
    split at h
    · simp only [Option.some.injEq] at h; subst h; simp
    · exact summGo_le items s h
  · intro items
    unfold get_rule_summary
    by_cases h1 : items.isEmpty
    · have : items = [] := by simpa [List.isEmpty_iff] using h1
      subst this; rfl
    · by_cases h2 : (items.filter isManagedItem).isEmpty
      · have hf : items.filter isManagedItem = [] := by simpa [List.isEmpty_iff] using h2
        rw [if_pos h2, if_neg h1]
        have := summGo_filter items
        rw [hf] at this
        exact this
      · rw [if_neg h2, if_neg h1]
        exact summGo_filter items

/-- C10 witness: the bound on the concrete forest `forestW` (one managed
port rule, one managed non-port rule, one foreign rule). -/
theorem c10_summary_bounds_witness :
    get_rule_summary forestW = some ⟨2, 1⟩ ∧
    (⟨2, 1⟩ : Summary).input_port_rules ≤ (⟨2, 1⟩ : Summary).input_rules := by
  refine ⟨by decide, c10_summary_bounds.1 forestW ⟨2, 1⟩ (by decide)⟩

/-! ## Lemmas for claim C8 -/

theorem stepExpr_total (e : Expr) (st : FmtState) (h : metaSafe e = true) :
    ∃ st', stepExpr st e = some st' := by
  cases e with
  | meta key negate left right =>
    simp only [metaSafe] at h
    cases left <;> cases right <;> simp only [stepExpr] <;> split_ifs <;> simp_all
  | _ => simp only [stepExpr] <;> (try split_ifs) <;> exact ⟨_, rfl⟩

theorem runExprs_total :
    ∀ (l : List Expr) (st : FmtState),
      (∀ e ∈ l, metaSafe e = true) → ∃ st', runExprs st l = some st' := by
  intro l
  induction l with
  | nil => intro st _; exact ⟨st, rfl⟩
  | cons e es ih =>
    intro st hall
    obtain ⟨st₁, h₁⟩ := stepExpr_total e st (hall e (by simp))
    obtain ⟨st', h'⟩ := ih st₁ (fun x hx => hall x (by simp [hx]))
    exact ⟨st', by simp only [runExprs, h₁, h']⟩

theorem portFrag_none_of_isNone {e : Expr} (h : (portFrag e).isNone = true) :
    portFrag e = none := by
  cases hp : portFrag e
  · rfl
  · rw [hp] at h; exact absurd h (by simp)

theorem matchE_dport_false_of_portFrag_none
    {op p f : String} {right : Rhs} {neg : Bool}
    (h : (portFrag (.matchE op p f right neg)).isNone = true) :
    (f == "dport") = false := by
  by_contra hc
  have hf : (f == "dport") = true := by
    cases hb : (f == "dport")
    · exact absurd hb hc
    · rfl
  simp [portFrag, hf] at h

theorem scanMatch_skip :
    ∀ (es rest : List Expr) (pr : String) (pi : Int),
      (∀ e ∈ es, (portFrag e).isNone = true) →
      scanMatch pr pi (es ++ rest) = scanMatch pr pi rest := by
  intro es
  induction es with
  | nil => intro rest pr pi _; rfl
  | cons e es ih =>
    intro rest pr pi hall
    have he := hall e (by simp)
    have htail : ∀ x ∈ es, (portFrag x).isNone = true := fun x hx => hall x (by simp [hx])
    cases e with
    | matchE op p f right neg =>
      have hf := matchE_dport_false_of_portFrag_none he
      simp only [List.cons_append, scanMatch, hf, Bool.and_false, Bool.false_eq_true, if_false]
      exact ih rest pr pi htail
    | _ =>
      simp only [List.cons_append, scanMatch]
      exact ih rest pr pi htail

theorem scanMatch_clean :
    ∀ (es : List Expr) (pr : String) (pi : Int),
      (∀ e ∈ es, noDportMatch pr e = true) → scanMatch pr pi es = some none := by
  intro es
  induction es with
  | nil => intro pr pi _; rfl
  | cons e es ih =>
    intro pr pi hall
    have he := hall e (by simp)
    have htail : ∀ x ∈ es, noDportMatch pr x = true := fun x hx => hall x (by simp [hx])
    cases e with
    | matchE op p f right neg =>
      simp only [noDportMatch, Bool.not_eq_eq_eq_not, Bool.not_true] at he
      simp only [scanMatch, he, Bool.false_eq_true, if_false]
      exact ih pr pi htail
    | _ =>
      simp only [scanMatch]
      exact ih pr pi htail

theorem search_skip :
    ∀ (items rest : List Item) (port : Int) (pr : String),
      (∀ i ∈ items, itemClean pr i = true) →
      search_rules_by_port (items ++ rest) port pr = search_rules_by_port rest port pr := by
  intro items
  induction items with
  | nil => intro rest port pr _; rfl
  | cons i items ih =>
    intro rest port pr hall
    have hi := hall i (by simp)
    have htail : ∀ x ∈ items, itemClean pr x = true := fun x hx => hall x (by simp [hx])
    cases i with
    | other =>
      simp only [List.cons_append, search_rules_by_port]
      exact ih rest port pr htail
    | rule r =>
      simp only [itemClean, List.all_eq_true] at hi
      simp only [List.cons_append, search_rules_by_port, scanMatch_clean r.expr pr port hi]
      exact ih rest port pr htail

theorem lastPortAux_append :
    ∀ (xs ys : List Expr) (acc : Option String),
      lastPortAux acc (xs ++ ys) = lastPortAux (lastPortAux acc xs) ys := by
  intro xs
  induction xs with
  | nil => intro ys acc; rfl
  | cons x xs ih =>
    intro ys acc
    simp only [List.cons_append, lastPortAux]
    exact ih ys _

theorem lastPortAux_nones :
    ∀ (es : List Expr) (acc : Option String),
      (∀ e ∈ es, (portFrag e).isNone = true) → lastPortAux acc es = acc := by
  intro es
  induction es with
  | nil => intro acc _; rfl
  | cons e es ih =>
    intro acc hall
    have he := portFrag_none_of_isNone (hall e (by simp))
    simp only [lastPortAux, he]
    exact ih acc (fun x hx => hall x (by simp [hx]))

theorem assemble_port_head (st : FmtState) (h : st.port_info ≠ "") :
    ∃ t, assemble st = st.port_info ++ t := by
  simp only [assemble]
  rw [if_pos h]
  simp only [List.singleton_append, List.cons_append]
  rw [if_pos (List.cons_ne_nil _ _)]
  exact joinWith_cons_ex " " st.port_info _

/-! ## Claim C8 -/

/-- C8: searching any forest for port 22 with protocol `tcp`, where
exactly one rule's expression list carries a match node with payload
protocol `tcp`, field `dport` and right operand 22 (the surrounding
items being arbitrary rules and non-rule entries without `tcp`/`dport`
match nodes, and the rule's remaining nodes carrying no port fields and
no formatter-raising shapes), returns exactly that one record — whatever
its family/table/chain triple, managed or not — and the record's
formatted description contains the substring `22`. -/
theorem c8_search_port_22 :
    ∀ (A B : List Item) (fam tab ch : String) (hdl : Option Int)
      (e₁ e₂ : List Expr) (op : String) (neg : Bool),
      (∀ i ∈ A, itemClean "tcp" i = true) →
      (∀ i ∈ B, itemClean "tcp" i = true) →
      (∀ e ∈ e₁ ++ e₂, (portFrag e).isNone = true ∧ metaSafe e = true) →
      ∃ desc : String,
        search_rules_by_port
          (A ++ .rule ⟨fam, tab, ch, hdl,
                  e₁ ++ [.matchE op "tcp" "dport" (.i 22) neg] ++ e₂⟩ :: B)
          22 "tcp" = some [⟨fam, tab, ch, desc, "tcp dport 22", hdl⟩] ∧
        strContains desc "22" = true := by
  intro A B fam tab ch hdl e₁ e₂ op neg hA hB hE
  have hE₁ : ∀ e ∈ e₁, (portFrag e).isNone = true := fun e he => (hE e (by simp [he])).1
  have hE₂ : ∀ e ∈ e₂, (portFrag e).isNone = true := fun e he => (hE e (by simp [he])).1
  have hscan :
      scanMatch "tcp" 22 (e₁ ++ [.matchE op "tcp" "dport" (.i 22) neg] ++ e₂) =
        some (some "tcp dport 22") := by
    rw [List.append_assoc, scanMatch_skip e₁ _ _ _ hE₁]
    simp only [List.cons_append, List.nil_append, scanMatch]
    norm_num [rightAsInt]
    decide
  have hsafe :
      ∀ e ∈ e₁ ++ [Expr.matchE op "tcp" "dport" (.i 22) neg] ++ e₂, metaSafe e = true := by
    intro e he
    simp only [List.mem_append, List.mem_singleton] at he
    rcases he with (h₁ | rfl) | h₂
    · exact (hE e (by simp [h₁])).2
    · rfl
    · exact (hE e (by simp [h₂])).2
  obtain ⟨st', hrun⟩ :=
    runExprs_total (e₁ ++ [.matchE op "tcp" "dport" (.i 22) neg] ++ e₂) initState hsafe
  have hfrag :
      lastPortFrag (e₁ ++ [.matchE op "tcp" "dport" (.i 22) neg] ++ e₂) =
        some ((if neg then "!" else "") ++ "端口 " ++ (Rhs.i 22).pyStr) := by
    unfold lastPortFrag
    rw [lastPortAux_append, lastPortAux_append, lastPortAux_nones e₁ none hE₁,
      lastPortAux_nones e₂ _ hE₂]
    simp [lastPortAux, portFrag]
  have hport : st'.port_info = (if neg then "!" else "") ++ "端口 " ++ (Rhs.i 22).pyStr := by
    have := runExprs_port _ initState st' hrun
    rw [hfrag] at this
    simpa using this
  have hne : st'.port_info ≠ "" := by
    rw [hport]; cases neg <;> decide
  have hfmt :
      format_rule_expression (e₁ ++ [.matchE op "tcp" "dport" (.i 22) neg] ++ e₂) =
        some (assemble st') := by
    unfold format_rule_expression
    rw [if_neg (by simp), hrun]
    rfl
  obtain ⟨t, ht⟩ := assemble_port_head st' hne
  have h22 : (Rhs.i 22).pyStr = "22" := by decide
  have hcontains : strContains (assemble st') "22" = true := by
    rw [ht, hport, h22]
    exact strContains_middle ((if neg then "!" else "") ++ "端口 ") "22" t
  refine ⟨assemble st', ?_, hcontains⟩
  rw [search_skip A _ 22 "tcp" hA]
  simp only [search_rules_by_port, hscan, hfmt]
  have hBclean : search_rules_by_port B 22 "tcp" = some [] := by
    have := search_skip B [] 22 "tcp" hB
    rw [List.append_nil] at this
    exact this
  rw [hBclean]
  rfl

/-- C8 witness: the concrete forest holds one foreign ssh rule alongside
a managed dns rule and a non-rule entry; the search returns exactly the
ssh record with its description containing `22`. -/
theorem c8_search_port_22_witness :
    ∃ desc : String,
      search_rules_by_port
        ([Item.other,
          .rule ⟨"ip", "filter", "input", some 3,
            [.matchE "==" "udp" "dport" (.i 53) false, .drop]⟩] ++
         .rule ⟨"inet", "mytable", "mychain", some 7,
            [.matchE "==" "tcp" "dport" (.i 22) false, .accept]⟩ ::
         [])
        22 "tcp" = some [⟨"inet", "mytable", "mychain", desc, "tcp dport 22", some 7⟩] ∧
      strContains desc "22" = true := by
  exact c8_search_port_22
    [Item.other,
     .rule ⟨"ip", "filter", "input", some 3, [.matchE "==" "udp" "dport" (.i 53) false, .drop]⟩]
    [] "inet" "mytable" "mychain" (some 7) [] [.accept] "==" false
    (by decide) (by decide) (by decide)

end NftHelper
